import Mathlib

/-!
Shallow embedding of the temporal role resolution engine of
`billy/models/legislators.py`: the vote-role resolver (`vote_role`),
the old-role grouping (`old_roles_manager`), session lookup
(`sessions_served`) and the committee back-reference resolution
(`committee_object`).

Dates are modelled as ISO date strings ordered lexicographically, which
coincides with chronological order, and mirrors the `<` comparisons in
the source.  Python dictionaries are modelled as association lists with
first-match lookup; a `KeyError` is an `Except.error`.
-/

namespace Billy

/-- A role record: one stretch of service.  Optional fields are `Option`;
`some ""` models a key that is present but holds an empty (falsy) value. -/
structure SRole where
  term : String
  chamber : String
  type : String
  committee_id : Option String
  start_date : Option String
  end_date : Option String
  deriving DecidableEq, Repr

/-- The data of a vote that `vote_role` consults: `vote['chamber']`,
`vote['date']` and `vote.bill()['_term']`. -/
structure SVote where
  chamber : String
  date : String
  bill_term : String
  deriving DecidableEq, Repr

/-- The legislator fields that `vote_role` consults: the `active` flag and
the `old_roles` mapping from term identifier to historical roles. -/
structure SLegislator where
  active : Bool
  old_roles : List (String × List SRole)
  deriving DecidableEq, Repr

/-- Python dict lookup on an association list: first entry with the key. -/
def dictGet {α : Type} (d : List (String × α)) (k : String) : Option α :=
  (d.find? (fun p => p.1 == k)).map (fun p => p.2)

/-- Python truthiness of `role.get(field)`: `None` (absent) and the empty
string are falsy; any non-empty string is truthy. -/
def truthy : Option String → Bool
  | none => false
  | some s => !(s == "")

/-- Strict comparison of two dates, as the `<` of the source.  Stated on
the underlying character lists so that it is kernel-computable; it agrees
with the lexicographic order on `String` (see `dateLt_iff`). -/
def dateLt (a b : String) : Bool := decide (a.toList < b.toList)

/-- The body of the date-range scan in `vote_role`: the role is retained
when both `start_date` and `end_date` are truthy and
`start_date < vote_date < end_date` holds strictly on both ends. -/
def roleMatchesDate (vote_date : String) (role : SRole) : Bool :=
  if truthy role.start_date && truthy role.end_date then
    match role.start_date, role.end_date with
    | some s, some e => dateLt s vote_date && dateLt vote_date e
    | _, _ => false
  else
    false

/-- Chamber filtering: `filter(lambda role: role['chamber'] == chamber, roles)`. -/
def chamberFilter (roles : List SRole) (chamber : String) : List SRole :=
  roles.filter (fun role => role.chamber == chamber)

/-- The value `vote_role` resolves to: the legislator itself (active
shortcut) or one historical role. -/
inductive VoteRole where
  | legSelf
  | histRole (r : SRole)
  deriving DecidableEq, Repr

/-- The resolver `Legislator.vote_role`: active shortcut, `old_roles[term]` lookup
(`Except.error` models the `KeyError`), chamber filter, single-candidate
shortcut (`roles.pop()` on a one-element list), and the date-range scan
returning the first strict containment match; falling off the end of the
scan returns Python `None`, modelled as `Except.ok none`. -/
def vote_role (leg : SLegislator) (vote : SVote) : Except Unit (Option VoteRole) :=
  if leg.active then
    Except.ok (some VoteRole.legSelf)
  else
    match dictGet leg.old_roles vote.bill_term with
    | none => Except.error ()
    | some roles =>
      let filtered := chamberFilter roles vote.chamber
      if filtered.length == 1 then
        Except.ok (filtered.getLast?.map VoteRole.histRole)
      else
        Except.ok ((filtered.find? (roleMatchesDate vote.date)).map VoteRole.histRole)

/-! ## Old-role grouping: `old_roles_manager` -/

/-- Lower-casing of `role['type']`, character by character. -/
def lowerString (t : String) : String := String.mk (t.toList.map Char.toLower)

/-- The replacement `.replace(' ', '_')` for the single-character pattern of
the source: every space becomes an underscore. -/
def slugChar (c : Char) : Char := if c == ' ' then '_' else c

/-- The grouping key of `old_roles_manager`:
`role['type'].lower().replace(' ', '_')`. -/
def typeslug (t : String) : String :=
  String.mk ((lowerString t).toList.map slugChar)

/-- Runs of adjacent roles sharing a chamber, each tagged with that
chamber: `itertools.groupby(roles, itemgetter('chamber'))`. -/
def groupbyChamber : List SRole → List (String × List SRole)
  | [] => []
  | r :: rs =>
    match groupbyChamber rs with
    | [] => [(r.chamber, [r])]
    | (c, g) :: rest =>
      if r.chamber == c then (c, r :: g) :: rest
      else (r.chamber, [r]) :: (c, g) :: rest

/-- The nested `defaultdict(lambda: defaultdict(list))` of
`old_roles_manager`, as a function from chamber and type slug to the
accumulated role list. -/
def RoleGroups := String → String → List SRole

/-- The freshly created `defaultdict`: every bucket empty. -/
def emptyGroups : RoleGroups := fun _ _ => []

/-- Appending one role: `chamber_roles[chamber][typeslug].append(role)`. -/
def addRole (acc : RoleGroups) (chamber : String) (role : SRole) : RoleGroups :=
  fun c s =>
    if c == chamber && s == typeslug role.type then acc c s ++ [role]
    else acc c s

/-- The inner loop of `old_roles_manager` over one `groupby` run: every
role of the run is appended under the run's chamber key. -/
def addRun (acc : RoleGroups) (run : String × List SRole) : RoleGroups :=
  run.2.foldl (fun a r => addRole a run.1 r) acc

/-- The per-term body of `old_roles_manager`: group one term's role list
by chamber (via `itertools.groupby`) and then by type slug. -/
def group_chamber_type (roles : List SRole) : RoleGroups :=
  (groupbyChamber roles).foldl addRun emptyGroups

/-- Role-at-a-time accumulation, each role appended under its own
chamber: the reference form the grouping fold is proved equal to. -/
def accumRoles (l : List SRole) (acc : RoleGroups) : RoleGroups :=
  l.foldl (fun a r => addRole a r.chamber r) acc

/-- The generator `Legislator.old_roles_manager`: for each term of `old_roles`, in
order, the chamber/type grouping of that term's roles. -/
def old_roles_manager (old_roles : List (String × List SRole)) :
    List (String × RoleGroups) :=
  old_roles.map (fun p => (p.1, group_chamber_type p.2))

/-! ## Session lookup: `sessions_served` -/

/-- One term definition from `metadata['terms']`: its `name` and its
ordered `sessions` list. -/
structure STerm where
  name : String
  sessions : List String
  deriving DecidableEq, Repr

/-- The metadata fields `sessions_served` consults:
`metadata['terms']` and `metadata['session_details']`, the latter
mapping a session identifier to its `display_name`. -/
structure SMetadata where
  terms : List STerm
  session_details : List (String × String)
  deriving DecidableEq, Repr

/-- Lookup of `session_details[s]['display_name']`, with `KeyError` as
`Except.error`. -/
def sessionDisplay (md : SMetadata) (s : String) : Except Unit String :=
  match dictGet md.session_details s with
  | some d => Except.ok d
  | none => Except.error ()

/-- The per-role body of `sessions_served`: non-member roles yield
nothing; for a member role the term name is first tried directly as a
`session_details` key (the `try` branch yields that single display
name); on `KeyError` every metadata term whose `name` matches is
expanded into the display names of its sessions, a missing session
raising `KeyError`. -/
def sessionsForRole (md : SMetadata) (role : SRole) : Except Unit (List String) :=
  if role.type == "member" then
    let term_name := role.term
    match dictGet md.session_details term_name with
    | some details => Except.ok [details]
    | none =>
      (md.terms.filter (fun t => t.name == term_name)).foldlM
        (fun acc t => do
          let ds ← t.sessions.mapM (sessionDisplay md)
          pure (acc ++ ds)) []
  else
    Except.ok []

/-- The generator `Legislator.sessions_served`, collecting the generator's yields over
the legislator's `roles` list; a `KeyError` aborts the iteration. -/
def sessions_served (md : SMetadata) (roles : List SRole) :
    Except Unit (List String) :=
  roles.foldlM
    (fun acc role => do
      let ds ← sessionsForRole md role
      pure (acc ++ ds)) []

/-! ## Committee resolution: `OldRole.committee_object` -/

/-- A committee document, reduced to its identifier. -/
structure SCommittee where
  id : String
  deriving DecidableEq, Repr

/-- The possible results of `committee_object`: a committee document, the
Python `None` when the back-reference table has no entry for the id, or
the role itself when it carries no `committee_id`. -/
inductive CommitteeObj where
  | comm (c : SCommittee)
  | noCommittee
  | selfRole (r : SRole)
  deriving DecidableEq, Repr

/-- The method `OldRole.committee_object`, with `table` the legislator's
`_old_roles_committees` back-reference table. -/
def committee_object (table : List (String × SCommittee)) (r : SRole) :
    CommitteeObj :=
  match r.committee_id with
  | some cid =>
    match dictGet table cid with
    | some c => CommitteeObj.comm c
    | none => CommitteeObj.noCommittee
  | none => CommitteeObj.selfRole r

/-! ## Concrete sample data, used by the witnesses -/

/-- First role of the disjoint-range resolver example. -/
def roleA : SRole := ⟨"T2011", "upper", "member", none, some "2011-01-01", some "2012-12-31"⟩

/-- Second role of the disjoint-range resolver example. -/
def roleB : SRole := ⟨"T2011", "upper", "member", none, some "2013-01-01", some "2014-12-31"⟩

/-- An inactive legislator holding `roleA` and `roleB` for term `T2011`. -/
def legAB : SLegislator := ⟨false, [("T2011", [roleA, roleB])]⟩

/-- A vote dated strictly inside the range of `roleB`. -/
def voteMid : SVote := ⟨"upper", "2013-06-01", "T2011"⟩

/-- A vote dated exactly on the `start_date` of `roleB`. -/
def voteBoundary : SVote := ⟨"upper", "2013-01-01", "T2011"⟩

/-- A role with no dates at all. -/
def roleNoDates : SRole := ⟨"T2011", "lower", "member", none, none, none⟩

/-- An inactive legislator whose term `T2011` has a single lower-chamber
role. -/
def legSingle : SLegislator := ⟨false, [("T2011", [roleNoDates])]⟩

/-- A lower-chamber vote dated outside every range. -/
def voteLower : SVote := ⟨"lower", "2020-05-05", "T2011"⟩

/-- An inactive legislator with no historical data at all. -/
def legEmpty : SLegislator := ⟨false, []⟩

/-- Sample upper-chamber member role for the grouping witness. -/
def roleU1 : SRole := ⟨"T", "upper", "member", none, none, none⟩

/-- Sample lower-chamber member role for the grouping witness. -/
def roleL1 : SRole := ⟨"T", "lower", "member", none, none, none⟩

/-- Sample upper-chamber committee-member role for the grouping witness. -/
def roleU2 : SRole := ⟨"T", "upper", "committee member", some "C1", none, none⟩

/-- A term with two sessions. -/
def termT1 : STerm := ⟨"T1", ["S1", "S2"]⟩

/-- Metadata in which the term identifier `T1` is itself a
`session_details` key. -/
def mdPreempt : SMetadata := ⟨[termT1], [("T1", "Direct"), ("S1", "A"), ("S2", "B")]⟩

/-- Metadata in which only the sessions appear in `session_details`. -/
def mdNormal : SMetadata := ⟨[termT1], [("S1", "A"), ("S2", "B")]⟩

/-- A membership role referencing term `T1`. -/
def memberT1 : SRole := ⟨"T1", "upper", "member", none, none, none⟩

/-- A committee document for the committee-resolution witness. -/
def comm1 : SCommittee := ⟨"C1"⟩

/-- A back-reference table holding only `comm1`. -/
def commTable : List (String × SCommittee) := [("C1", comm1)]

/-- A role whose `committee_id` is absent from `commTable`. -/
def roleWithC2 : SRole := ⟨"T", "upper", "committee member", some "C2", none, none⟩

/-- A role whose `start_date` is present but empty. -/
def roleEmptyStart : SRole := ⟨"T", "upper", "member", none, some "", some "2014-01-01"⟩

/-- A role whose `end_date` is present but empty. -/
def roleEmptyEnd : SRole := ⟨"T", "upper", "member", none, some "2011-01-01", some ""⟩

/-- A role with a proper date range containing `voteT`'s date. -/
def roleProper : SRole := ⟨"T", "upper", "member", none, some "2011-01-01", some "2014-01-01"⟩

/-- An inactive legislator mixing empty-dated and properly dated roles. -/
def legTruthy : SLegislator := ⟨false, [("T", [roleEmptyStart, roleEmptyEnd, roleProper])]⟩

/-- An upper-chamber vote for term `T` dated inside `roleProper`'s range. -/
def voteT : SVote := ⟨"upper", "2013-06-01", "T"⟩

/-! ## Helper lemmas -/

/-- The boolean date comparison agrees with the lexicographic order on
strings. -/
lemma dateLt_iff {a b : String} : dateLt a b = true ↔ a < b := by
  simp [dateLt, String.lt_iff_toList_lt]

/-- Strictness: no date is below itself. -/
lemma dateLt_irrefl (a : String) : dateLt a a = false := by
  cases h : dateLt a a with
  | false => rfl
  | true => exact absurd (dateLt_iff.mp h) (lt_irrefl a)

/-- Unfolding of the resolver on the date-scan branch. -/
lemma vote_role_scan (leg : SLegislator) (vote : SVote) (roles : List SRole)
    (hact : leg.active = false)
    (hterm : dictGet leg.old_roles vote.bill_term = some roles)
    (hcount : (chamberFilter roles vote.chamber).length ≠ 1) :
    vote_role leg vote =
      Except.ok (((chamberFilter roles vote.chamber).find?
        (roleMatchesDate vote.date)).map VoteRole.histRole) := by
  simp [vote_role, hact, hterm, hcount]

/-! ## Claim theorems -/

/-- C3: for a legislator whose `active` flag is true, `vote_role` returns
the legislator's own record (the legislator standing in as the role),
whatever the vote's chamber, date or term and whatever historical data
exists: no lookup, filter or date check takes part in the result. -/
theorem vote_role_active_shortcut (old_roles : List (String × List SRole)) (vote : SVote) :
    vote_role ⟨true, old_roles⟩ vote = Except.ok (some VoteRole.legSelf) := rfl

/-- C4: for an inactive legislator, when the vote's term is absent from
`old_roles` the resolver fails with the reportable `KeyError` condition,
and in particular never produces an `ok` result, empty or otherwise. -/
theorem vote_role_missing_term (leg : SLegislator) (vote : SVote)
    (hact : leg.active = false)
    (hmiss : dictGet leg.old_roles vote.bill_term = none) :
    vote_role leg vote = Except.error () ∧
    ∀ o : Option VoteRole, vote_role leg vote ≠ Except.ok o := by
  have h : vote_role leg vote = Except.error () := by
    simp [vote_role, hact, hmiss]
  exact ⟨h, fun o => by simp [h]⟩

/-- Witness for C4: a legislator with no historical data at all makes the
resolver fail with the error condition. -/
theorem vote_role_missing_term_witness :
    vote_role legEmpty voteLower = Except.error () :=
  (vote_role_missing_term legEmpty voteLower rfl rfl).1

/-- C2: for an inactive legislator, when the chamber filter leaves exactly
one candidate role the resolver returns it at once, with no date
hypothesis whatsoever: the conclusion holds even when the candidate's
dates are absent or fail to contain the vote date. -/
theorem vote_role_single_candidate (leg : SLegislator) (vote : SVote)
    (roles : List SRole) (r : SRole)
    (hact : leg.active = false)
    (hterm : dictGet leg.old_roles vote.bill_term = some roles)
    (hone : chamberFilter roles vote.chamber = [r]) :
    vote_role leg vote = Except.ok (some (VoteRole.histRole r)) := by
  simp [vote_role, hact, hterm, hone]

/-- Witness for C2: the single lower-chamber candidate has no dates at
all and the vote date is contained in no range, yet it is returned. -/
theorem vote_role_single_candidate_witness :
    vote_role legSingle voteLower = Except.ok (some (VoteRole.histRole roleNoDates)) :=
  vote_role_single_candidate legSingle voteLower [roleNoDates] roleNoDates rfl rfl rfl

/-- C5: for an inactive legislator whose term is present, when the
chamber filter does not leave exactly one candidate and no candidate
passes the strict date containment test, the resolver returns the
absence value (Python `None`) as a regular `ok` result, not a fault. -/
theorem vote_role_undetermined (leg : SLegislator) (vote : SVote) (roles : List SRole)
    (hact : leg.active = false)
    (hterm : dictGet leg.old_roles vote.bill_term = some roles)
    (hcount : (chamberFilter roles vote.chamber).length ≠ 1)
    (hnone : ∀ r ∈ chamberFilter roles vote.chamber,
      roleMatchesDate vote.date r = false) :
    vote_role leg vote = Except.ok none := by
  have hfind : (chamberFilter roles vote.chamber).find?
      (roleMatchesDate vote.date) = none :=
    List.find?_eq_none.mpr (fun x hx => by simp [hnone x hx])
  rw [vote_role_scan leg vote roles hact hterm hcount, hfind]
  rfl

/-- Witness for C5: the boundary vote dated exactly on `roleB`'s
`start_date` matches neither of the two candidate roles, and the
resolver returns the absence value. -/
theorem vote_role_undetermined_witness :
    vote_role legAB voteBoundary = Except.ok none :=
  vote_role_undetermined legAB voteBoundary [roleA, roleB] rfl rfl
    (by decide) (by decide)

/-- C1: for an inactive legislator, when the chamber filter leaves zero
or several candidates the resolver scans the candidates in order and
returns exactly the first one passing the containment test; the test on
a role carrying both dates is the strict double inequality
`start_date < vote.date < end_date` on non-empty dates, so a vote dated
exactly on a boundary matches neither that role's start nor its end. -/
theorem vote_role_date_fallback (leg : SLegislator) (vote : SVote) (roles : List SRole)
    (hact : leg.active = false)
    (hterm : dictGet leg.old_roles vote.bill_term = some roles)
    (hcount : (chamberFilter roles vote.chamber).length ≠ 1) :
    (∀ r : SRole,
        vote_role leg vote = Except.ok (some (VoteRole.histRole r)) ↔
          roleMatchesDate vote.date r = true ∧
          ∃ skipped rest, chamberFilter roles vote.chamber = skipped ++ r :: rest ∧
            ∀ x ∈ skipped, roleMatchesDate vote.date x = false) ∧
    (∀ (r : SRole) (s e : String),
        r.start_date = some s → r.end_date = some e →
          (roleMatchesDate vote.date r = true ↔
            s ≠ "" ∧ e ≠ "" ∧ s < vote.date ∧ vote.date < e)) ∧
    (∀ r : SRole,
        r.start_date = some vote.date ∨ r.end_date = some vote.date →
          roleMatchesDate vote.date r = false) := by
  refine ⟨?_, ?_, ?_⟩
  · intro r
    rw [vote_role_scan leg vote roles hact hterm hcount]
    constructor
    · intro h
      have hfind : (chamberFilter roles vote.chamber).find?
          (roleMatchesDate vote.date) = some r := by
        cases hf : (chamberFilter roles vote.chamber).find?
            (roleMatchesDate vote.date) with
        | none => rw [hf] at h; simp at h
        | some x =>
          rw [hf] at h
          simp only [Option.map_some', Except.ok.injEq, Option.some.injEq,
            VoteRole.histRole.injEq] at h
          rw [h]
      obtain ⟨hp, skipped, rest, hsplit, hskip⟩ := List.find?_eq_some.mp hfind
      exact ⟨hp, skipped, rest, hsplit, fun x hx => by
        have := hskip x hx
        simpa using this⟩
    · rintro ⟨hp, skipped, rest, hsplit, hskip⟩
      have hfind : (chamberFilter roles vote.chamber).find?
          (roleMatchesDate vote.date) = some r :=
        List.find?_eq_some.mpr ⟨hp, skipped, rest, hsplit,
          fun x hx => by simp [hskip x hx]⟩
      rw [hfind]
      rfl
  · intro r s e hs he
    simp only [roleMatchesDate, hs, he, truthy]
    constructor
    · intro h
      by_cases hse : ((!(s == "")) && (!(e == ""))) = true
      · rw [if_pos hse] at h
        simp only [Bool.and_eq_true] at h
        simp only [Bool.and_eq_true, Bool.not_eq_eq_eq_not, Bool.not_true,
          beq_eq_false_iff_ne] at hse
        exact ⟨hse.1, hse.2, dateLt_iff.mp h.1, dateLt_iff.mp h.2⟩
      · rw [if_neg hse] at h
        exact absurd h (by simp)
    · rintro ⟨hs0, he0, hlt1, hlt2⟩
      have hse : ((!(s == "")) && (!(e == ""))) = true := by
        simp [hs0, he0]
      rw [if_pos hse]
      simp [dateLt_iff.mpr hlt1, dateLt_iff.mpr hlt2]
  · intro r hbound
    rcases hbound with hs | he
    · cases he : r.end_date with
      | none => simp [roleMatchesDate, hs, he, truthy]
      | some e =>
        simp [roleMatchesDate, hs, he, truthy, dateLt_irrefl]
    · cases hs : r.start_date with
      | none => simp [roleMatchesDate, hs, he, truthy]
      | some s =>
        simp [roleMatchesDate, hs, he, truthy, dateLt_irrefl]

/-- Witness for C1: with the two disjoint-range candidates, the vote
dated `2013-06-01` resolves to the second role `roleB`, the first one
being skipped by the scan. -/
theorem vote_role_date_fallback_witness :
    vote_role legAB voteMid = Except.ok (some (VoteRole.histRole roleB)) :=
  ((vote_role_date_fallback legAB voteMid [roleA, roleB] rfl rfl
      (by decide)).1 roleB).mpr
    ⟨by decide, [roleA], [], by decide, by decide⟩

/-! ## Grouping lemmas -/

/-- Unfolding equation of `groupbyChamber` on a cons cell. -/
lemma groupbyChamber_cons (r : SRole) (rs : List SRole) :
    groupbyChamber (r :: rs) =
      match groupbyChamber rs with
      | [] => [(r.chamber, [r])]
      | (c, g) :: rest =>
        if r.chamber == c then (c, r :: g) :: rest
        else (r.chamber, [r]) :: (c, g) :: rest := by
  rw [groupbyChamber]

/-- Specialised unfolding when the tail groups to nothing. -/
lemma groupbyChamber_cons_nil (r : SRole) {rs : List SRole}
    (h : groupbyChamber rs = []) :
    groupbyChamber (r :: rs) = [(r.chamber, [r])] := by
  have hc := groupbyChamber_cons r rs
  rw [h] at hc
  exact hc

/-- Specialised unfolding when the tail groups to at least one run. -/
lemma groupbyChamber_cons_cons (r : SRole) {rs : List SRole} {c0 : String}
    {g : List SRole} {rest : List (String × List SRole)}
    (h : groupbyChamber rs = (c0, g) :: rest) :
    groupbyChamber (r :: rs) =
      if r.chamber == c0 then (c0, r :: g) :: rest
      else (r.chamber, [r]) :: (c0, g) :: rest := by
  have hc := groupbyChamber_cons r rs
  rw [h] at hc
  exact hc

/-- Only the empty list groups to no runs. -/
lemma groupbyChamber_eq_nil {l : List SRole} (h : groupbyChamber l = []) :
    l = [] := by
  cases l with
  | nil => rfl
  | cons r rs =>
    exfalso
    cases hg : groupbyChamber rs with
    | nil =>
      rw [groupbyChamber_cons_nil r hg] at h
      exact List.noConfusion h
    | cons p rest =>
      obtain ⟨c0, g⟩ := p
      rw [groupbyChamber_cons_cons r hg] at h
      by_cases hc : (r.chamber == c0) = true
      · rw [if_pos hc] at h; exact List.noConfusion h
      · rw [if_neg hc] at h; exact List.noConfusion h

/-- Folding the grouped runs equals accumulating the roles one at a
time, each under its own chamber key: the `defaultdict` accumulation
erases the run structure of `groupby`. -/
lemma groupby_fold_eq_accum : ∀ (l : List SRole) (acc : RoleGroups),
    (groupbyChamber l).foldl addRun acc = accumRoles l acc := by
  intro l
  induction l with
  | nil => intro acc; rfl
  | cons r rs ih =>
    intro acc
    cases hg : groupbyChamber rs with
    | nil =>
      have hrs : rs = [] := groupbyChamber_eq_nil hg
      subst hrs
      rw [groupbyChamber_cons_nil r hg]
      rfl
    | cons p rest =>
      obtain ⟨c0, g⟩ := p
      rw [groupbyChamber_cons_cons r hg]
      by_cases hc : (r.chamber == c0) = true
      · rw [if_pos hc]
        have hceq : r.chamber = c0 := by simpa using hc
        calc ((c0, r :: g) :: rest).foldl addRun acc
            = ((c0, g) :: rest).foldl addRun (addRole acc c0 r) := rfl
          _ = (groupbyChamber rs).foldl addRun (addRole acc c0 r) := by rw [hg]
          _ = accumRoles rs (addRole acc c0 r) := ih _
          _ = accumRoles rs (addRole acc r.chamber r) := by rw [hceq]
      · rw [if_neg hc]
        calc ((r.chamber, [r]) :: (c0, g) :: rest).foldl addRun acc
            = ((c0, g) :: rest).foldl addRun (addRole acc r.chamber r) := rfl
          _ = (groupbyChamber rs).foldl addRun (addRole acc r.chamber r) := by rw [hg]
          _ = accumRoles rs (addRole acc r.chamber r) := ih _

/-- Evaluating the role-at-a-time accumulation at one bucket: the bucket
collects, behind the initial contents, exactly the input roles with that
chamber and that type slug, in input order. -/
lemma accumRoles_eval : ∀ (l : List SRole) (acc : RoleGroups) (c s : String),
    accumRoles l acc c s
      = acc c s ++ l.filter (fun r => r.chamber == c && typeslug r.type == s) := by
  intro l
  induction l with
  | nil => intro acc c s; simp [accumRoles]
  | cons r rs ih =>
    intro acc c s
    have hstep : accumRoles (r :: rs) acc = accumRoles rs (addRole acc r.chamber r) := rfl
    rw [hstep, ih]
    by_cases h1 : r.chamber = c
    · by_cases h2 : typeslug r.type = s
      · subst h1; subst h2
        simp [addRole]
      · have hfalse : ((r.chamber == c) && (typeslug r.type == s)) = false := by
          simp [h2]
        have h2s : s ≠ typeslug r.type := fun hs => h2 hs.symm
        have haddRole : addRole acc r.chamber r c s = acc c s := by
          simp [addRole, h2s]
        rw [haddRole, List.filter_cons, hfalse]
        simp
    · have hfalse : ((r.chamber == c) && (typeslug r.type == s)) = false := by
        simp [h1]
      have h1s : c ≠ r.chamber := fun hc => h1 hc.symm
      have haddRole : addRole acc r.chamber r c s = acc c s := by
        simp [addRole, h1s]
      rw [haddRole, List.filter_cons, hfalse]
      simp

/-- The bucket of one chamber and one type slug holds exactly the
matching input roles, in input order. -/
lemma group_chamber_type_eval (roles : List SRole) (c s : String) :
    group_chamber_type roles c s
      = roles.filter (fun r => r.chamber == c && typeslug r.type == s) := by
  have h : group_chamber_type roles = accumRoles roles emptyGroups :=
    groupby_fold_eq_accum roles emptyGroups
  rw [h, accumRoles_eval]
  rfl

/-- C6: the per-term grouping of `old_roles_manager` is key-based: the
bucket of chamber `c` and type slug `s` holds exactly the input roles
with that chamber and that slug, in input order, even when the roles of
one chamber are not contiguous in the input; consequently grouping any
permutation of the same role sequence yields, bucket for bucket, a
permutation of the same roles. -/
theorem old_roles_grouping_key_based :
    (∀ (roles : List SRole) (c s : String),
        group_chamber_type roles c s
          = roles.filter (fun r => r.chamber == c && typeslug r.type == s)) ∧
    (∀ (roles roles2 : List SRole), roles.Perm roles2 →
        ∀ c s, (group_chamber_type roles c s).Perm (group_chamber_type roles2 c s)) := by
  refine ⟨group_chamber_type_eval, ?_⟩
  intro roles roles2 hp c s
  rw [group_chamber_type_eval, group_chamber_type_eval]
  exact hp.filter _

/-- Witness for C6: swapping the two upper-chamber roles around the
lower-chamber one permutes each bucket's contents. -/
theorem old_roles_grouping_key_based_witness :
    ([roleU1, roleU2].Perm [roleU2, roleU1]) ∧
    (group_chamber_type [roleU1, roleU2] "upper" "member").Perm
      (group_chamber_type [roleU2, roleU1] "upper" "member") :=
  ⟨List.Perm.swap roleU2 roleU1 [],
   old_roles_grouping_key_based.2 [roleU1, roleU2] [roleU2, roleU1]
     (List.Perm.swap roleU2 roleU1 []) "upper" "member"⟩

/-- C7: the grouping key is the role's type lower-cased with every space
turned into an underscore, character by character; the two sample
spellings collapse to the same key, and any two type strings equal after
lower-casing receive the same key. -/
theorem typeslug_collapses_case :
    typeslug "Committee Member" = "committee_member" ∧
    typeslug "committee member" = "committee_member" ∧
    (∀ t : String, (typeslug t).toList
        = t.toList.map (fun ch => slugChar (Char.toLower ch))) ∧
    (∀ t u : String, lowerString t = lowerString u → typeslug t = typeslug u) := by
  refine ⟨by decide, by decide, ?_, ?_⟩
  · intro t
    simp [typeslug, lowerString, List.map_map, Function.comp]
  · intro t u h
    simp [typeslug, h]

/-- Witness for C7: two spellings of the same word differing only in
case get the same slug. -/
theorem typeslug_collapses_case_witness :
    lowerString "MEMBER" = lowerString "Member" ∧
    typeslug "MEMBER" = typeslug "Member" :=
  ⟨by decide, typeslug_collapses_case.2.2.2 "MEMBER" "Member" (by decide)⟩

/-! ## Committee resolution, truthiness, sessions -/

/-- C9: `committee_object` resolves a role carrying a `committee_id`
through the back-reference table, an identifier absent from the table
giving the absence value rather than a fault, while a role carrying no
`committee_id` stands in as its own committee object. -/
theorem committee_object_cases (table : List (String × SCommittee)) (r : SRole) :
    (∀ cid c, r.committee_id = some cid → dictGet table cid = some c →
        committee_object table r = CommitteeObj.comm c) ∧
    (∀ cid, r.committee_id = some cid → dictGet table cid = none →
        committee_object table r = CommitteeObj.noCommittee) ∧
    (r.committee_id = none → committee_object table r = CommitteeObj.selfRole r) := by
  refine ⟨?_, ?_, ?_⟩
  · intro cid c h1 h2; simp [committee_object, h1, h2]
  · intro cid h1 h2; simp [committee_object, h1, h2]
  · intro h1; simp [committee_object, h1]

/-- Witness for C9: hit, miss and self-reference on concrete data. -/
theorem committee_object_cases_witness :
    committee_object commTable roleU2 = CommitteeObj.comm comm1 ∧
    committee_object commTable roleWithC2 = CommitteeObj.noCommittee ∧
    committee_object commTable roleU1 = CommitteeObj.selfRole roleU1 :=
  ⟨(committee_object_cases commTable roleU2).1 "C1" comm1 rfl rfl,
   (committee_object_cases commTable roleWithC2).2.1 "C2" rfl rfl,
   (committee_object_cases commTable roleU1).2.2 rfl⟩

/-- An empty (falsy) date field makes the containment test reject the
role, whichever side carries it. -/
lemma roleMatchesDate_empty (d : String) (r : SRole)
    (h : r.start_date = some "" ∨ r.end_date = some "") :
    roleMatchesDate d r = false := by
  rcases h with h | h
  · cases he : r.end_date <;> simp [roleMatchesDate, truthy, h, he]
  · cases hs : r.start_date <;> simp [roleMatchesDate, truthy, h, hs]

/-- On the scan branch, a returned role is the one found by `find?`. -/
lemma vote_role_scan_find (leg : SLegislator) (vote : SVote) (roles : List SRole)
    (r : SRole)
    (hact : leg.active = false)
    (hterm : dictGet leg.old_roles vote.bill_term = some roles)
    (hcount : (chamberFilter roles vote.chamber).length ≠ 1)
    (hres : vote_role leg vote = Except.ok (some (VoteRole.histRole r))) :
    (chamberFilter roles vote.chamber).find? (roleMatchesDate vote.date)
      = some r := by
  rw [vote_role_scan leg vote roles hact hterm hcount] at hres
  cases hf : (chamberFilter roles vote.chamber).find? (roleMatchesDate vote.date) with
  | none => rw [hf] at hres; simp at hres
  | some x =>
    rw [hf] at hres
    simp only [Option.map_some', Except.ok.injEq, Option.some.injEq,
      VoteRole.histRole.injEq] at hres
    rw [hres]

/-- C10: a candidate role whose `start_date` or `end_date` is present but
empty is skipped by the date-range fallback exactly as if the field were
absent: the containment test rejects it, replacing the empty field by an
absent one leaves the test unchanged, and no role returned by the scan
carries an empty date field. -/
theorem vote_role_empty_date_skipped :
    (∀ (d : String) (r : SRole),
        r.start_date = some "" ∨ r.end_date = some "" →
          roleMatchesDate d r = false) ∧
    (∀ (d tm c ty : String) (cid o : Option String),
        roleMatchesDate d ⟨tm, c, ty, cid, some "", o⟩
          = roleMatchesDate d ⟨tm, c, ty, cid, none, o⟩ ∧
        roleMatchesDate d ⟨tm, c, ty, cid, o, some ""⟩
          = roleMatchesDate d ⟨tm, c, ty, cid, o, none⟩) ∧
    (∀ (leg : SLegislator) (vote : SVote) (roles : List SRole) (r : SRole),
        leg.active = false →
        dictGet leg.old_roles vote.bill_term = some roles →
        (chamberFilter roles vote.chamber).length ≠ 1 →
        vote_role leg vote = Except.ok (some (VoteRole.histRole r)) →
        r.start_date ≠ some "" ∧ r.end_date ≠ some "") := by
  refine ⟨roleMatchesDate_empty, ?_, ?_⟩
  · intro d tm c ty cid o
    constructor
    · simp [roleMatchesDate, truthy]
    · simp [roleMatchesDate, truthy]
  · intro leg vote roles r hact hterm hcount hres
    have hfind := vote_role_scan_find leg vote roles r hact hterm hcount hres
    have hp : roleMatchesDate vote.date r = true := List.find?_some hfind
    constructor
    · intro hcon
      rw [roleMatchesDate_empty vote.date r (Or.inl hcon)] at hp
      exact Bool.noConfusion hp
    · intro hcon
      rw [roleMatchesDate_empty vote.date r (Or.inr hcon)] at hp
      exact Bool.noConfusion hp

/-- Witness for C10: the empty-dated candidates are passed over and the
scan lands on the properly dated one, which carries no empty field. -/
theorem vote_role_empty_date_skipped_witness :
    roleMatchesDate "2013-06-01" roleEmptyStart = false ∧
    vote_role legTruthy voteT = Except.ok (some (VoteRole.histRole roleProper)) ∧
    roleProper.start_date ≠ some "" ∧ roleProper.end_date ≠ some "" :=
  ⟨vote_role_empty_date_skipped.1 "2013-06-01" roleEmptyStart (Or.inl rfl),
   rfl,
   (vote_role_empty_date_skipped.2.2 legTruthy voteT
      [roleEmptyStart, roleEmptyEnd, roleProper] roleProper rfl rfl
      (by decide) rfl).1,
   (vote_role_empty_date_skipped.2.2 legTruthy voteT
      [roleEmptyStart, roleEmptyEnd, roleProper] roleProper rfl rfl
      (by decide) rfl).2⟩

/-- Counterexample to C8 as frozen: term `T1` defines sessions `S1, S2`
whose display names are `A, B`, but because the identifier `T1` is
itself a `session_details` key the generator yields that single entry's
display name `Direct` instead of `A, B`. -/
theorem sessions_served_counterexample :
    sessions_served mdPreempt [memberT1] = Except.ok ["Direct"] ∧
    sessions_served mdPreempt [memberT1] ≠ Except.ok ["A", "B"] := by
  have h : sessions_served mdPreempt [memberT1] = Except.ok ["Direct"] := rfl
  refine ⟨h, ?_⟩
  rw [h]
  intro hcon
  simp at hcon

/-- C8 amended: for a term whose identifier is not itself a
`session_details` key and which is the unique metadata term of its name,
the generator run on a membership role referencing it yields exactly the
display names of its sessions, in the order the term lists them. -/
theorem sessions_served_in_order (md : SMetadata) (T : STerm) (role : SRole)
    (ds : List String)
    (hmem : role.type = "member")
    (hterm : role.term = T.name)
    (hnokey : dictGet md.session_details T.name = none)
    (huniq : md.terms.filter (fun t => t.name == T.name) = [T])
    (hds : T.sessions.mapM (sessionDisplay md) = Except.ok ds) :
    sessions_served md [role] = Except.ok ds := by
  simp [sessions_served, sessionsForRole, hmem, hterm, hnokey, huniq, hds]
  exact hds

/-- Witness for C8 (amended): with only the sessions in
`session_details`, the two display names come out in session order. -/
theorem sessions_served_in_order_witness :
    sessions_served mdNormal [memberT1] = Except.ok ["A", "B"] :=
  sessions_served_in_order mdNormal termT1 memberT1 ["A", "B"]
    rfl rfl rfl rfl rfl

end Billy
